import Mathlib

/-!
MyTokenERC20 web client: session, binding and transaction log.

A shallow embedding of `webui/MyTokenERC20/js/config.js`, `contract.js` and
`app.js`.

* Every `async` method is one atomic step of the state: the answers of the
  wallet provider, of the contract transport and of the `ethers` helpers are
  read from an `Env` value handed to the step.
* A JavaScript exception is an `Except JsError` result; a method that mutates
  `this` before throwing returns the mutated object next to the error.
* `null` and `undefined` are both `none`.
* `ethers.utils.formatUnits(v, d)` is kept unevaluated as `HumanAmount.mk v d`.
* The calls issued to the transport (`calls`) and the handlers registered with
  `contract.on` (`listeners`) live in the `ethers.Contract` objects; they are
  recorded in the `TokenContract` record that issued them.
* Of the document only the parts that carry state of the controller are kept:
  the transaction history, the status message and the contract address
  field. Writes that only render text (token info, balances, badges) are left
  out; they never throw and never feed back into the control flow.
* The field `transactions` of `TokenDApp` is written once and never read; it is
  left out. The history the handlers maintain is the list of children of
  `#txHistory`, taken to be empty when the page loads.
* Keys of `NETWORKS` and `DEFAULT_CONTRACT_ADDRESSES` are looked up among the own
  properties of the two objects.
-/

namespace MyTokenERC20

/-! ## JavaScript exceptions -/

/-- A thrown JavaScript value. -/
inductive JsError where
  /-- Thrown by the application itself: `throw new Error(message)`. -/
  | error (message : String)
  /-- Raised by the engine when a property of `null` or `undefined` is read. -/
  | typeError (message : String)
  /-- Raised by the unit conversion `ethers.utils.parseUnits`. -/
  | invalidAmount (message : String)
  /-- A rejection coming from the wallet provider or the contract transport. -/
  | rejected (message : String)
  deriving DecidableEq, Repr

/-- The `message` property of the thrown value. -/
def JsError.message : JsError → String
  | .error m => m
  | .typeError m => m
  | .invalidAmount m => m
  | .rejected m => m

/-- The error the read operations raise when no contract is bound. -/
def contractNotLoaded : JsError := .error "Contract not loaded."

/-! ## config.js -/

structure NativeCurrency where
  name : String
  symbol : String
  decimals : Nat
  deriving DecidableEq, Repr

structure NetworkConfig where
  chainId : String
  chainName : String
  rpcUrls : List String
  blockExplorerUrls : Option (List String)
  nativeCurrency : NativeCurrency
  deriving DecidableEq, Repr

/-- The table `NETWORKS` (own keys only). -/
def NETWORKS (key : String) : Option NetworkConfig :=
  if key = "sepolia" then
    some { chainId := "0xaa36a7", chainName := "Sepolia Testnet",
           rpcUrls := ["https://rpc.sepolia.org"],
           blockExplorerUrls := some ["https://sepolia.etherscan.io"],
           nativeCurrency := { name := "Sepolia ETH", symbol := "ETH", decimals := 18 } }
  else if key = "localhost" then
    some { chainId := "0x7a69", chainName := "Local Anvil",
           rpcUrls := ["http://127.0.0.1:8545"],
           blockExplorerUrls := none,
           nativeCurrency := { name := "ETH", symbol := "ETH", decimals := 18 } }
  else if key = "mainnet" then
    some { chainId := "0x1", chainName := "Ethereum Mainnet",
           rpcUrls := ["https://mainnet.infura.io/v3/YOUR_INFURA_KEY"],
           blockExplorerUrls := some ["https://etherscan.io"],
           nativeCurrency := { name := "Ether", symbol := "ETH", decimals := 18 } }
  else none

/-- The table `DEFAULT_CONTRACT_ADDRESSES` (own keys only). -/
def DEFAULT_CONTRACT_ADDRESSES (key : String) : Option String :=
  if key = "sepolia" then some "0x90EC07444b1A6B0A055561566418e44b1b6Ce889"
  else if key = "localhost" then some "YOUR_LOCALHOST_DEPLOYED_ADDRESS"
  else if key = "mainnet" then some ""
  else none

/-- JavaScript truthiness of a string-or-undefined value, as in
`if (defaultAddress)`. -/
def truthy : Option String → Bool
  | none => false
  | some s => s != ""

/-! ## The outside world -/

/-- A mined transaction, as returned by `tx.wait()`. -/
structure Receipt where
  transactionHash : String
  deriving DecidableEq, Repr

/-- A call issued to the contract transport. The first argument is the address
the `ethers.Contract` object was built for. -/
inductive Call where
  | name (contract : String)
  | symbol (contract : String)
  | decimals (contract : String)
  | totalSupply (contract : String)
  | balanceOf (contract user : String)
  | allowance (contract owner spender : String)
  | transfer (contract toAddr : String) (value : Int)
  | approve (contract spender : String) (value : Int)
  | transferFrom (contract sender toAddr : String) (value : Int)
  | burn (contract : String) (value : Int)
  | wait (tx : String)
  deriving DecidableEq, Repr

/-- Is the call one of the four state-changing contract methods? -/
def Call.isWrite : Call → Bool
  | .transfer .. => true
  | .approve .. => true
  | .transferFrom .. => true
  | .burn .. => true
  | _ => false

/-- Answers of the contract transport during one step. -/
structure Chain where
  name : String → Except JsError String
  symbol : String → Except JsError String
  decimals : String → Except JsError Nat
  totalSupply : String → Except JsError Nat
  balanceOf : String → String → Except JsError Nat
  allowance : String → String → String → Except JsError Nat
  /-- Submission of a write call: the handle of the pending transaction, or
  the rejection of the signer or of the transport. -/
  send : Call → Except JsError String
  /-- Outcome of `tx.wait()` on a pending transaction. -/
  wait : String → Except JsError Receipt

/-- The injected wallet provider `window.ethereum` during one step. -/
structure Ethereum where
  /-- Answer to `eth_requestAccounts`. -/
  requestAccounts : Except JsError (List String)
  networkVersion : Option String
  /-- Answer to `wallet_switchEthereumChain` for a chain id. -/
  switchEthereumChain : String → Except JsError Unit

/-- Everything a step reads from outside the two classes. -/
structure Env where
  /-- The global `window.ethereum`; `none` when no wallet is installed. -/
  ethereum : Option Ethereum
  /-- The helper `ethers.utils.isAddress`. -/
  isAddress : String → Bool
  /-- The helper `ethers.utils.parseUnits`. -/
  parseUnits : String → Nat → Except JsError Int
  chain : Chain

/-! ## contract.js -/

inductive Web3Provider where
  | mk
  deriving DecidableEq, Repr

inductive JsonRpcSigner where
  | mk
  deriving DecidableEq, Repr

/-- An `ethers.Contract` object: `new ethers.Contract(address, CONTRACT_ABI, signer)`. -/
structure Contract where
  address : String
  deriving DecidableEq, Repr

/-- The unevaluated call `ethers.utils.formatUnits(value, decimals)`. -/
structure HumanAmount where
  value : Nat
  decimals : Nat
  deriving DecidableEq, Repr

/-- A handler registered with `contract.on(event, ...)`. -/
structure Listener where
  contract : String
  event : String
  deriving DecidableEq, Repr

structure TokenInfo where
  name : String
  symbol : String
  decimals : Nat
  totalSupply : HumanAmount
  deriving DecidableEq, Repr

structure TokenContract where
  provider : Option Web3Provider
  signer : Option JsonRpcSigner
  contract : Option Contract
  contractAddress : Option String
  decimals : Nat
  /-- Transport calls issued so far, oldest first. -/
  calls : List Call
  /-- Handlers registered so far and never removed, oldest first. -/
  listeners : List Listener
  deriving DecidableEq, Repr

/-- The constructor of `TokenContract`. -/
def TokenContract.new : TokenContract :=
  { provider := none, signer := none, contract := none, contractAddress := none,
    decimals := 18, calls := [], listeners := [] }

def TokenContract.init (tc : TokenContract) (provider : Web3Provider) (signer : JsonRpcSigner) :
    TokenContract :=
  { tc with provider := some provider, signer := some signer }

def TokenContract.loadContract (tc : TokenContract) (address : String) :
    Except JsError Unit × TokenContract :=
  let tc := { tc with contractAddress := some address }
  if tc.provider.isNone || tc.signer.isNone then
    (.error (.error "Provider and signer not initialized."), tc)
  else
    (.ok (), { tc with contract := some { address := address } })

/-- The four reads of `Promise.all`: all are issued, the first failure wins. -/
def Chain.readInfo (chain : Chain) (a : String) : Except JsError (String × String × Nat × Nat) := do
  let name ← chain.name a
  let symbol ← chain.symbol a
  let decimals ← chain.decimals a
  let totalSupply ← chain.totalSupply a
  pure (name, symbol, decimals, totalSupply)

def TokenContract.getTokenInfo (tc : TokenContract) (env : Env) :
    Except JsError TokenInfo × TokenContract :=
  match tc.contract with
  | none => (.error contractNotLoaded, tc)
  | some c =>
    let tc := { tc with calls := tc.calls ++
      [.name c.address, .symbol c.address, .decimals c.address, .totalSupply c.address] }
    match env.chain.readInfo c.address with
    | .error e => (.error e, tc)
    | .ok (name, symbol, decimals, totalSupply) =>
      let tc := { tc with decimals := decimals }
      (.ok { name := name, symbol := symbol, decimals := decimals,
             totalSupply := { value := totalSupply, decimals := tc.decimals } }, tc)

def TokenContract.getBalance (tc : TokenContract) (env : Env) (userAddress : String) :
    Except JsError HumanAmount × TokenContract :=
  match tc.contract with
  | none => (.error contractNotLoaded, tc)
  | some c =>
    let tc := { tc with calls := tc.calls ++ [.balanceOf c.address userAddress] }
    match env.chain.balanceOf c.address userAddress with
    | .error e => (.error e, tc)
    | .ok balance => (.ok { value := balance, decimals := tc.decimals }, tc)

def TokenContract.getAllowance (tc : TokenContract) (env : Env) (owner spender : String) :
    Except JsError HumanAmount × TokenContract :=
  match tc.contract with
  | none => (.error contractNotLoaded, tc)
  | some c =>
    let tc := { tc with calls := tc.calls ++ [.allowance c.address owner spender] }
    match env.chain.allowance c.address owner spender with
    | .error e => (.error e, tc)
    | .ok allowance => (.ok { value := allowance, decimals := tc.decimals }, tc)

/-- The common tail of the four write methods:
`const tx = await this.contract.m(...); return tx.wait();`.
Reading the method `m` of a `null` contract raises a `TypeError`. -/
def TokenContract.sendAndWait (tc : TokenContract) (env : Env) (method : String)
    (call : String → Call) : Except JsError Receipt × TokenContract :=
  match tc.contract with
  | none =>
    (.error (.typeError ("Cannot read properties of null (reading '" ++ method ++ "')")), tc)
  | some c =>
    let tc := { tc with calls := tc.calls ++ [call c.address] }
    match env.chain.send (call c.address) with
    | .error e => (.error e, tc)
    | .ok tx => (env.chain.wait tx, { tc with calls := tc.calls ++ [.wait tx] })

def TokenContract.transfer (tc : TokenContract) (env : Env) (toAddr amount : String) :
    Except JsError Receipt × TokenContract :=
  match env.parseUnits amount tc.decimals with
  | .error e => (.error e, tc)
  | .ok parsedAmount => tc.sendAndWait env "transfer" (fun c => .transfer c toAddr parsedAmount)

def TokenContract.approve (tc : TokenContract) (env : Env) (spender amount : String) :
    Except JsError Receipt × TokenContract :=
  match env.parseUnits amount tc.decimals with
  | .error e => (.error e, tc)
  | .ok parsedAmount => tc.sendAndWait env "approve" (fun c => .approve c spender parsedAmount)

def TokenContract.transferFrom (tc : TokenContract) (env : Env) (sender toAddr amount : String) :
    Except JsError Receipt × TokenContract :=
  match env.parseUnits amount tc.decimals with
  | .error e => (.error e, tc)
  | .ok parsedAmount =>
    tc.sendAndWait env "transferFrom" (fun c => .transferFrom c sender toAddr parsedAmount)

def TokenContract.burn (tc : TokenContract) (env : Env) (amount : String) :
    Except JsError Receipt × TokenContract :=
  match env.parseUnits amount tc.decimals with
  | .error e => (.error e, tc)
  | .ok parsedAmount => tc.sendAndWait env "burn" (fun c => .burn c parsedAmount)

def TokenContract.setupEventListeners (tc : TokenContract) : TokenContract :=
  match tc.contract with
  | none => tc
  | some c =>
    { tc with listeners := tc.listeners ++
        [{ contract := c.address, event := "Transfer" },
         { contract := c.address, event := "Approval" }] }

/-! ## app.js -/

/-- One `tx-item` element of the transaction history: the values spliced into
its `innerHTML` template. -/
structure TxItem where
  type : String
  explorerUrl : String
  hash : String
  deriving DecidableEq, Repr

structure TokenDApp where
  provider : Option Web3Provider
  signer : Option JsonRpcSigner
  userAddress : Option String
  currentNetwork : String
  tokenContract : TokenContract
  /-- Number of `accountsChanged` handlers registered on `window.ethereum`. -/
  accountsChangedListeners : Nat
  /-- Value of the input `#contractAddress`. -/
  contractAddressInput : String
  /-- Text and severity class of `#statusMessage`. -/
  statusMessage : Option (String × String)
  /-- Children of `#txHistory`, first child first. -/
  txHistory : List TxItem
  deriving DecidableEq, Repr

/-- The constructor of `TokenDApp`, over an empty transaction history. -/
def TokenDApp.new : TokenDApp :=
  { provider := none, signer := none, userAddress := none, currentNetwork := "sepolia",
    tokenContract := TokenContract.new, accountsChangedListeners := 0,
    contractAddressInput := "", statusMessage := none, txHistory := [] }

def TokenDApp.showStatus (s : TokenDApp) (message type : String) : TokenDApp :=
  { s with statusMessage := some (message, type) }

def TokenDApp.refreshTokenInfo (s : TokenDApp) (env : Env) : TokenDApp :=
  match s.tokenContract.contract with
  | none => s
  | some _ =>
    match s.tokenContract.getTokenInfo env with
    | (.error _, tc) =>
      ({ s with tokenContract := tc }).showStatus
        "Could not refresh token info. Is the contract address correct for this network?" "error"
    | (.ok _, tc) =>
      let s := { s with tokenContract := tc }
      match s.userAddress with
      | none => s
      | some user =>
        match s.tokenContract.getBalance env user with
        | (.error _, tc) =>
          ({ s with tokenContract := tc }).showStatus
            "Could not refresh token info. Is the contract address correct for this network?"
            "error"
        | (.ok _, tc) => { s with tokenContract := tc }

def TokenDApp.loadContract (s : TokenDApp) (env : Env) (address : String) : TokenDApp :=
  if !env.isAddress address then
    s.showStatus ("Failed to load contract: " ++ "Invalid contract address") "error"
  else
    match s.tokenContract.loadContract address with
    | (.error e, tc) =>
      ({ s with tokenContract := tc }).showStatus ("Failed to load contract: " ++ e.message) "error"
    | (.ok _, tc) =>
      let s := { s with tokenContract := tc }
      let s := s.refreshTokenInfo env
      let s := { s with tokenContract := s.tokenContract.setupEventListeners }
      s.showStatus "Contract loaded successfully!" "success"

/-- Value of a hexadecimal digit. -/
def hexDigit (c : Char) : Option Nat :=
  if '0' ≤ c ∧ c ≤ '9' then some (c.toNat - '0'.toNat)
  else if 'a' ≤ c ∧ c ≤ 'f' then some (c.toNat - 'a'.toNat + 10)
  else if 'A' ≤ c ∧ c ≤ 'F' then some (c.toNat - 'A'.toNat + 10)
  else none

/-- Value of the longest prefix of hexadecimal digits; `acc` is `none` until a
digit has been read. -/
def parseHexDigits : List Char → Option Nat → Option Nat
  | [], acc => acc
  | c :: cs, acc =>
    match hexDigit c with
    | none => acc
    | some d => parseHexDigits cs (some (acc.getD 0 * 16 + d))

/-- The expression `parseInt(chainId, 16).toString()` on an unsigned string
without leading blanks. -/
def chainIdToVersion (chainId : String) : String :=
  let digits :=
    match chainId.toList with
    | '0' :: 'x' :: cs => parseHexDigits cs none
    | '0' :: 'X' :: cs => parseHexDigits cs none
    | cs => parseHexDigits cs none
  match digits with
  | none => "NaN"
  | some n => toString n

def TokenDApp.switchNetwork (s : TokenDApp) (env : Env) (networkKey : String) : TokenDApp :=
  let s := { s with currentNetwork := networkKey }
  match NETWORKS networkKey with
  | none =>
    s.showStatus
      ("Failed to switch network: " ++ ("Network '" ++ networkKey ++ "' not configured.")) "error"
  | some network =>
    match env.ethereum with
    | none =>
      s.showStatus ("Failed to switch network: " ++
        "Cannot read properties of undefined (reading 'networkVersion')") "error"
    | some ethereum =>
      let switched : Except JsError Unit :=
        if ethereum.networkVersion ≠ some (chainIdToVersion network.chainId) then
          ethereum.switchEthereumChain network.chainId
        else .ok ()
      match switched with
      | .error e => s.showStatus ("Failed to switch network: " ++ e.message) "error"
      | .ok _ =>
        let defaultAddress := DEFAULT_CONTRACT_ADDRESSES networkKey
        match defaultAddress with
        | none => { s with contractAddressInput := "" }
        | some address =>
          if truthy defaultAddress then
            ({ s with contractAddressInput := address }).loadContract env address
          else { s with contractAddressInput := "" }

def TokenDApp.disconnectWallet (s : TokenDApp) : TokenDApp :=
  { s with userAddress := none, provider := none, signer := none }

/-- The handler that `setupMetaMaskListeners` registers for `accountsChanged`. -/
def TokenDApp.onAccountsChanged (s : TokenDApp) (env : Env) (accounts : List String) : TokenDApp :=
  if accounts.length = 0 then s.disconnectWallet
  else
    let s := { s with userAddress := accounts.head? }
    s.refreshTokenInfo env

def TokenDApp.setupMetaMaskListeners (s : TokenDApp) : TokenDApp :=
  { s with accountsChangedListeners := s.accountsChangedListeners + 1 }

/-- The provider emits `accountsChanged`: every handler registered so far runs. -/
def TokenDApp.accountsChanged (s : TokenDApp) (env : Env) (accounts : List String) : TokenDApp :=
  Nat.repeat (fun s => s.onAccountsChanged env accounts) s.accountsChangedListeners s

def TokenDApp.connectWallet (s : TokenDApp) (env : Env) : TokenDApp :=
  match env.ethereum with
  | none => s.showStatus ("Failed to connect wallet: " ++ "MetaMask not installed") "error"
  | some ethereum =>
    match ethereum.requestAccounts with
    | .error e => s.showStatus ("Failed to connect wallet: " ++ e.message) "error"
    | .ok accounts =>
      let s := { s with userAddress := accounts.head? }
      let s := { s with provider := some .mk }
      let s := { s with signer := some .mk }
      let s := { s with tokenContract := s.tokenContract.init .mk .mk }
      let s := s.switchNetwork env s.currentNetwork
      let s := s.setupMetaMaskListeners
      s.showStatus "Wallet connected successfully!" "success"

/-- The loop `while (children.length > 10) removeChild(lastChild)`; `fuel`
bounds the number of rounds. -/
def removeOldest : Nat → List TxItem → List TxItem
  | 0, children => children
  | fuel + 1, children =>
    if children.length > 10 then removeOldest fuel children.dropLast else children

/-- The expression `NETWORKS[networkKey].blockExplorerUrls[0]`, which raises a
`TypeError` when the key or the list of explorers is missing. -/
def explorerUrl (networkKey : String) : Except JsError String :=
  match NETWORKS networkKey with
  | none =>
    .error (.typeError "Cannot read properties of undefined (reading 'blockExplorerUrls')")
  | some network =>
    match network.blockExplorerUrls with
    | none => .error (.typeError "Cannot read properties of undefined (reading '0')")
    | some urls => .ok (urls.head?.getD "undefined")

def TokenDApp.addTransaction (s : TokenDApp) (type hash : String) : Except JsError TokenDApp :=
  match explorerUrl s.currentNetwork with
  | .error e => .error e
  | .ok explorerUrl =>
    let txElement : TxItem := { type := type, explorerUrl := explorerUrl, hash := hash }
    let children := txElement :: s.txHistory
    .ok { s with txHistory := removeOldest children.length children }

def TokenDApp.handleTransfer (s : TokenDApp) (env : Env) (toAddr amount : String) : TokenDApp :=
  let s := s.showStatus "Sending transaction..." "info"
  match s.tokenContract.transfer env toAddr amount with
  | (.error e, tc) =>
    ({ s with tokenContract := tc }).showStatus ("Transfer failed: " ++ e.message) "error"
  | (.ok receipt, tc) =>
    let s := { s with tokenContract := tc }
    match s.addTransaction "Transfer" receipt.transactionHash with
    | .error e => s.showStatus ("Transfer failed: " ++ e.message) "error"
    | .ok s => (s.refreshTokenInfo env).showStatus "Transfer successful!" "success"

def TokenDApp.handleApprove (s : TokenDApp) (env : Env) (spender amount : String) : TokenDApp :=
  let s := s.showStatus "Sending approval..." "info"
  match s.tokenContract.approve env spender amount with
  | (.error e, tc) =>
    ({ s with tokenContract := tc }).showStatus ("Approval failed: " ++ e.message) "error"
  | (.ok receipt, tc) =>
    let s := { s with tokenContract := tc }
    match s.addTransaction "Approval" receipt.transactionHash with
    | .error e => s.showStatus ("Approval failed: " ++ e.message) "error"
    | .ok s => s.showStatus "Approval successful!" "success"

def TokenDApp.handleTransferFrom (s : TokenDApp) (env : Env) (sender toAddr amount : String) :
    TokenDApp :=
  let s := s.showStatus "Executing transfer from..." "info"
  match s.tokenContract.transferFrom env sender toAddr amount with
  | (.error e, tc) =>
    ({ s with tokenContract := tc }).showStatus ("Transfer From failed: " ++ e.message) "error"
  | (.ok receipt, tc) =>
    let s := { s with tokenContract := tc }
    match s.addTransaction "TransferFrom" receipt.transactionHash with
    | .error e => s.showStatus ("Transfer From failed: " ++ e.message) "error"
    | .ok s => (s.refreshTokenInfo env).showStatus "Transfer From successful!" "success"

def TokenDApp.handleBurn (s : TokenDApp) (env : Env) (amount : String) : TokenDApp :=
  let s := s.showStatus "Burning tokens..." "info"
  match s.tokenContract.burn env amount with
  | (.error e, tc) =>
    ({ s with tokenContract := tc }).showStatus ("Burn failed: " ++ e.message) "error"
  | (.ok receipt, tc) =>
    let s := { s with tokenContract := tc }
    match s.addTransaction "Burn" receipt.transactionHash with
    | .error e => s.showStatus ("Burn failed: " ++ e.message) "error"
    | .ok s => (s.refreshTokenInfo env).showStatus "Burn successful!" "success"

def TokenDApp.handleContractEvent (s : TokenDApp) (env : Env) (eventName : String) : TokenDApp :=
  (s.showStatus ("Event Received: " ++ eventName ++ "!") "info").refreshTokenInfo env

/-! ## Unit conversion -/

/-- Value of a string of decimal digits. -/
def digitsValue (cs : List Char) : Nat :=
  cs.foldl (fun acc c => acc * 10 + (c.toNat - '0'.toNat)) 0

/-- The characters before the first dot. -/
def wholePart (cs : List Char) : List Char :=
  cs.takeWhile (fun c => c != '.')

/-- The characters after the first dot; empty when there is no dot. -/
def fractionPart (cs : List Char) : List Char :=
  (cs.dropWhile (fun c => c != '.')).drop 1

/-- Is there a dot in the string? -/
def hasDot (cs : List Char) : Bool :=
  cs.any (fun c => c == '.')

/-- An unsigned decimal numeral: one or more digits, optionally followed by a
dot and one or more digits. -/
def isUnsignedDecimal (cs : List Char) : Bool :=
  !(wholePart cs).isEmpty && (wholePart cs).all Char.isDigit &&
    (!hasDot cs || (!(fractionPart cs).isEmpty && (fractionPart cs).all Char.isDigit))

/-- Number of fractional digits written in the amount. -/
def fractionalDigits (amount : String) : Nat :=
  (fractionPart amount.toList).length

/-- The amount is a minus sign followed by an unsigned decimal numeral. -/
def denotesNegative (amount : String) : Bool :=
  match amount.toList with
  | '-' :: cs => isUnsignedDecimal cs
  | _ => false

/-- The amount is a decimal numeral, signed or not. -/
def isNumeric (amount : String) : Bool :=
  isUnsignedDecimal amount.toList || denotesNegative amount

/-- The failure `InvalidAmount` of the unit conversion. -/
def invalidAmount : JsError := .invalidAmount "InvalidAmount"

/-- Modelled from the spec: the conversion `toBaseUnits(humanAmount, d)` of the
UnitConverter, which the code takes from the library as
`ethers.utils.parseUnits`; the library is not part of the sources. It parses a
decimal string and scales it by `10^d`; it fails with `InvalidAmount` on
non-numeric input, on negative input and on more fractional digits than `d`. -/
def parseUnits (amount : String) (decimals : Nat) : Except JsError Int :=
  let cs := amount.toList
  if !isUnsignedDecimal cs then .error invalidAmount
  else if decimals < fractionalDigits amount then .error invalidAmount
  else
    .ok (Int.ofNat (digitsValue (wholePart cs) * 10 ^ decimals +
      digitsValue (fractionPart cs) * 10 ^ (decimals - fractionalDigits amount)))

/-- The digits of a natural number, most significant first, without leading
zeros (`0` is written `0`). `fuel` bounds the number of digits after the first;
any `fuel ≥ n` is enough. -/
def wholeDigits : Nat → Nat → List Char
  | 0, _ => ['0']
  | fuel + 1, n =>
    if n < 10 then [Nat.digitChar n]
    else wholeDigits fuel (n / 10) ++ [Nat.digitChar (n % 10)]

/-- The `k` lowest decimal digits of `n`, most significant first, padded with
zeros on the left. -/
def fixedDigits : Nat → Nat → List Char
  | 0, _ => []
  | k + 1, n => fixedDigits k (n / 10) ++ [Nat.digitChar (n % 10)]

/-- A digit string without its trailing zeros. -/
def trimTrailingZeros : List Char → List Char
  | [] => []
  | c :: cs =>
    match trimTrailingZeros cs with
    | [] => if c = '0' then [] else [c]
    | t :: ts => c :: t :: ts

/-- Modelled from the spec: the conversion `toHumanUnits(baseAmount, d)` of the
UnitConverter, which the code takes from the library as
`ethers.utils.formatUnits`; the library is not part of the sources. It formats
the base amount divided by `10^d` as a decimal string with up to `d` fractional
digits, trimming trailing zeros; a value without fractional digits is written
without a dot. Base amounts are the `uint256` values that the contract reads
return. -/
def formatUnits (value : Nat) (decimals : Nat) : String :=
  let whole := wholeDigits (value / 10 ^ decimals) (value / 10 ^ decimals)
  let fraction := trimTrailingZeros (fixedDigits decimals value)
  match fraction with
  | [] => String.mk whole
  | f :: fs => String.mk (whole ++ '.' :: f :: fs)

/-- The string a read operation returns: the evaluation of the recorded call
`ethers.utils.formatUnits(value, decimals)`. -/
def HumanAmount.render (h : HumanAmount) : String :=
  formatUnits h.value h.decimals

/-! ## Vocabulary of the properties -/

/-- One of the four write requests, with its arguments. -/
inductive WriteRequest where
  | transfer (toAddr amount : String)
  | approve (spender amount : String)
  | transferFrom (sender toAddr amount : String)
  | burn (amount : String)
  deriving DecidableEq, Repr

def WriteRequest.amount : WriteRequest → String
  | .transfer _ amount => amount
  | .approve _ amount => amount
  | .transferFrom _ _ amount => amount
  | .burn amount => amount

/-- The kind under which the handler of the request records a transaction. -/
def WriteRequest.kind : WriteRequest → String
  | .transfer .. => "Transfer"
  | .approve .. => "Approval"
  | .transferFrom .. => "TransferFrom"
  | .burn .. => "Burn"

/-- The `TokenContract` method serving a request. -/
def TokenContract.write (tc : TokenContract) (env : Env) :
    WriteRequest → Except JsError Receipt × TokenContract
  | .transfer toAddr amount => tc.transfer env toAddr amount
  | .approve spender amount => tc.approve env spender amount
  | .transferFrom sender toAddr amount => tc.transferFrom env sender toAddr amount
  | .burn amount => tc.burn env amount

/-- The `TokenDApp` handler serving a request. -/
def TokenDApp.handle (s : TokenDApp) (env : Env) : WriteRequest → TokenDApp
  | .transfer toAddr amount => s.handleTransfer env toAddr amount
  | .approve spender amount => s.handleApprove env spender amount
  | .transferFrom sender toAddr amount => s.handleTransferFrom env sender toAddr amount
  | .burn amount => s.handleBurn env amount

/-- The session is connected: provider and signer are set. -/
def TokenDApp.connected (s : TokenDApp) : Bool :=
  s.provider.isSome && s.signer.isSome

/-- What can happen to the wallet session. -/
inductive WalletEvent where
  | connectWallet (env : Env)
  | disconnectWallet
  | accountsChanged (env : Env) (accounts : List String)

def TokenDApp.step (s : TokenDApp) : WalletEvent → TokenDApp
  | .connectWallet env => s.connectWallet env
  | .disconnectWallet => s.disconnectWallet
  | .accountsChanged env accounts => s.accountsChanged env accounts

def TokenDApp.run (s : TokenDApp) (events : List WalletEvent) : TokenDApp :=
  events.foldl TokenDApp.step s

/-- What can happen to the contract binding. -/
inductive BindingOp where
  | loadContract (address : String)
  | setupEventListeners
  deriving DecidableEq, Repr

def TokenContract.apply (tc : TokenContract) : BindingOp → TokenContract
  | .loadContract address => (tc.loadContract address).2
  | .setupEventListeners => tc.setupEventListeners

def TokenContract.applyAll (tc : TokenContract) (ops : List BindingOp) : TokenContract :=
  ops.foldl TokenContract.apply tc

/-- Number of `setupEventListeners` calls of a sequence that find a contract
bound. -/
def effectiveSetups : TokenContract → List BindingOp → Nat
  | _, [] => 0
  | tc, op :: ops =>
    (if op = .setupEventListeners ∧ tc.contract.isSome then 1 else 0) +
      effectiveSetups (tc.apply op) ops

/-- A call of a method of `TokenContract` other than `loadContract`. -/
inductive ContractOp where
  | init
  | getTokenInfo (env : Env)
  | getBalance (env : Env) (userAddress : String)
  | getAllowance (env : Env) (owner spender : String)
  | write (env : Env) (request : WriteRequest)
  | setupEventListeners

/-- The object after a call, whether the call returned or threw. -/
def TokenContract.perform (tc : TokenContract) : ContractOp → TokenContract
  | .init => tc.init .mk .mk
  | .getTokenInfo env => (tc.getTokenInfo env).2
  | .getBalance env userAddress => (tc.getBalance env userAddress).2
  | .getAllowance env owner spender => (tc.getAllowance env owner spender).2
  | .write env request => (tc.write env request).2
  | .setupEventListeners => tc.setupEventListeners

def TokenContract.performAll (tc : TokenContract) (ops : List ContractOp) : TokenContract :=
  ops.foldl TokenContract.perform tc

/-- The token info a call returns, when the call is a `getTokenInfo` that
succeeds on this object. -/
def TokenContract.infoRead (tc : TokenContract) : ContractOp → Option TokenInfo
  | .getTokenInfo env =>
    match (tc.getTokenInfo env).1 with
    | .ok info => some info
    | .error _ => none
  | _ => none

/-- The token info returned by the last `getTokenInfo` that succeeded in a run
of calls from this object; `none` when none succeeded. -/
def TokenContract.lastInfo : TokenContract → List ContractOp → Option TokenInfo
  | _, [] => none
  | tc, op :: ops =>
    match (tc.perform op).lastInfo ops with
    | some info => some info
    | none => tc.infoRead op

/-! ## A sample world -/

def tokenA : String := "0x90EC07444b1A6B0A055561566418e44b1b6Ce889"

def tokenB : String := "0x1111111111111111111111111111111111111111"

def alice : String := "0xAA00000000000000000000000000000000000001"

def bob : String := "0xBB00000000000000000000000000000000000002"

/-- A transport on which `tokenA` has 6 decimals and every other address 8, and
every write is mined. -/
def sampleChain : Chain :=
  { name := fun _ => .ok "MyToken"
    symbol := fun _ => .ok "MTK"
    decimals := fun a => .ok (if a = tokenA then 6 else 8)
    totalSupply := fun _ => .ok 1000000000
    balanceOf := fun _ _ => .ok 2500000
    allowance := fun _ _ _ => .ok 0
    send := fun _ => .ok "0xabcdef0123456789"
    wait := fun tx => .ok { transactionHash := tx } }

/-- A wallet on Sepolia that grants access to `alice` and accepts every chain
switch. -/
def sampleEthereum : Ethereum :=
  { requestAccounts := .ok [alice]
    networkVersion := some "11155111"
    switchEthereumChain := fun _ => .ok () }

/-- The sample world: its addresses are the strings of 42 characters, and
amounts are converted by `parseUnits`. -/
def sampleEnv : Env :=
  { ethereum := some sampleEthereum
    isAddress := fun a => a.length = 42
    parseUnits := parseUnits
    chain := sampleChain }

/-- The sample world with a wallet that refuses every chain switch. -/
def refusingEnv : Env :=
  { sampleEnv with
    ethereum := some { sampleEthereum with
      switchEthereumChain := fun _ => .error (.rejected "User rejected the request.") } }

/-- A session connected in the sample world: bound to `tokenA` on Sepolia. -/
def connectedApp : TokenDApp :=
  TokenDApp.new.connectWallet sampleEnv

deriving instance DecidableEq for Except

/-- The connected sample session after the wallet reported that no account is
left and then that `bob` is selected. -/
def reauthorizedApp : TokenDApp :=
  TokenDApp.new.run
    [.connectWallet sampleEnv, .accountsChanged sampleEnv [], .accountsChanged sampleEnv [bob]]

/-- A binding that cached the decimals of `tokenA` and was then loaded with
`tokenB`. -/
def reboundContract : Except JsError Unit × TokenContract :=
  (((TokenContract.new.init .mk .mk).loadContract tokenA).2.getTokenInfo sampleEnv).2.loadContract
    tokenB

/-- The connected sample session after a switch to Local Anvil. -/
def localhostApp : TokenDApp :=
  connectedApp.switchNetwork sampleEnv "localhost"

/-- The sample world with a transport on which every mined transaction
reverts. -/
def revertingEnv : Env :=
  { sampleEnv with
    chain := { sampleChain with wait := fun _ => .error (.rejected "transaction failed") } }

/-- The connected sample session after one successful transfer. -/
def transferredApp : TokenDApp :=
  connectedApp.handleTransfer sampleEnv bob "1"

/-- A binding on which `setupEventListeners` ran twice for `tokenA` before
`tokenB` was loaded. -/
def stackedContract : TokenContract :=
  (TokenContract.new.init .mk .mk).applyAll
    [.loadContract tokenA, .setupEventListeners, .setupEventListeners, .loadContract tokenB]

/-- A run of `addTransaction` calls, given as (type, hash) pairs, oldest first;
it stops at the first call that throws. -/
def TokenDApp.addTransactions (s : TokenDApp) : List (String × String) → Except JsError TokenDApp
  | [] => .ok s
  | (type, hash) :: rest =>
    match s.addTransaction type hash with
    | .error e => .error e
    | .ok s => s.addTransactions rest

/-- The sample world with a transport that answers no read. -/
def offlineEnv : Env :=
  { sampleEnv with
    chain := { sampleChain with
      name := fun _ => .error (.rejected "network error")
      decimals := fun _ => .error (.rejected "network error") } }

/-- Calls on the new binding among which no `getTokenInfo` succeeds. -/
def callsWithoutInfo : List ContractOp :=
  [.getBalance sampleEnv alice, .write sampleEnv (.transfer bob "1"),
   .getTokenInfo offlineEnv, .getAllowance sampleEnv alice bob, .setupEventListeners, .init]

/-- Calls on the new binding among which one `getTokenInfo` succeeds. -/
def callsWithInfo : List ContractOp :=
  [.getBalance sampleEnv alice, .getTokenInfo sampleEnv, .write sampleEnv (.burn "1"),
   .getTokenInfo offlineEnv, .getAllowance sampleEnv alice bob, .getBalance sampleEnv bob]

/-! ## Properties -/

/-! ### Helper lemmas on the binding -/

theorem loadContract_ok (tc : TokenContract) (b : String)
    (h : (tc.loadContract b).1 = .ok ()) :
    (tc.loadContract b).2 =
      { tc with contractAddress := some b, contract := some { address := b } } := by
  simp only [TokenContract.loadContract] at h ⊢
  split_ifs at h ⊢ with hp
  rfl

theorem loadContract_decimals (tc : TokenContract) (b : String) :
    (tc.loadContract b).2.decimals = tc.decimals := by
  simp only [TokenContract.loadContract]
  split_ifs <;> rfl

theorem loadContract_listeners (tc : TokenContract) (b : String) :
    (tc.loadContract b).2.listeners = tc.listeners := by
  simp only [TokenContract.loadContract]
  split_ifs <;> rfl

theorem readInfo_decimals (chain : Chain) (a : String) (n s : String) (d t : Nat)
    (h : chain.readInfo a = .ok (n, s, d, t)) : chain.decimals a = .ok d := by
  unfold Chain.readInfo at h
  cases hn : chain.name a <;> cases hs : chain.symbol a <;> cases hd : chain.decimals a <;>
    cases ht : chain.totalSupply a <;>
    simp_all [bind, Except.bind, pure, Except.pure]

theorem getTokenInfo_ok (tc tc' : TokenContract) (env : Env) (info : TokenInfo)
    (h : tc.getTokenInfo env = (.ok info, tc')) :
    ∃ c, tc.contract = some c ∧ tc'.contract = some c ∧ tc'.decimals = info.decimals ∧
      env.chain.decimals c.address = .ok info.decimals ∧
      tc'.calls = tc.calls ++
        [.name c.address, .symbol c.address, .decimals c.address, .totalSupply c.address] := by
  unfold TokenContract.getTokenInfo at h
  cases hc : tc.contract with
  | none => simp [hc] at h
  | some c =>
    simp only [hc] at h
    cases hr : env.chain.readInfo c.address with
    | error e => simp [hr] at h
    | ok r =>
      obtain ⟨n, sy, d, t⟩ := r
      simp only [hr, Prod.mk.injEq, Except.ok.injEq] at h
      obtain ⟨hinfo, htc⟩ := h
      subst hinfo htc
      exact ⟨c, rfl, rfl, rfl, readInfo_decimals _ _ _ _ _ _ hr, rfl⟩

theorem getBalance_bound (tc : TokenContract) (env : Env) (c : Contract) (user : String)
    (balance : Nat) (hc : tc.contract = some c)
    (hb : env.chain.balanceOf c.address user = .ok balance) :
    (tc.getBalance env user).1 = .ok { value := balance, decimals := tc.decimals } := by
  simp [TokenContract.getBalance, hc, hb]

theorem getBalance_unbound (tc : TokenContract) (env : Env) (user : String)
    (hc : tc.contract = none) :
    tc.getBalance env user = (.error contractNotLoaded, tc) := by
  simp [TokenContract.getBalance, hc]

/-! ### C1 -/

/-- C1, evaluated on the code: the wallet session connects with `alice`, the
provider reports an empty account list (the session disconnects), then reports
`bob`. The handler registered at connect time is still active and selects
`bob`, so the account is set while provider and signer are cleared: the
session is not connected although an account is selected. -/
theorem accountsChanged_after_disconnect_selects_account_unconnected :
    reauthorizedApp.userAddress = some bob ∧ reauthorizedApp.provider = none ∧
      reauthorizedApp.signer = none ∧ reauthorizedApp.connected = false := by
  decide

/-! ### C2 -/

/-- C2 as stated fails: in the sample world `tokenA` has 6 decimals and
`tokenB` has 8. After `getTokenInfo` cached 6 on the binding to `tokenA` and
`loadContract tokenB` succeeded, `getBalance` on the new binding converts the raw
balance with 6, the count cached from `tokenA`. -/
theorem getBalance_after_load_converts_with_stale_decimals :
    reboundContract.1 = .ok () ∧
      reboundContract.2.contract = some { address := tokenB } ∧
      sampleEnv.chain.decimals tokenA = .ok 6 ∧
      sampleEnv.chain.decimals tokenB = .ok 8 ∧
      (reboundContract.2.getBalance sampleEnv alice).1 =
        .ok { value := 2500000, decimals := 6 } := by
  decide

theorem getTokenInfo_error (tc : TokenContract) (env : Env) (e : JsError)
    (h : (tc.getTokenInfo env).1 = .error e) :
    (tc.getTokenInfo env).2.contract = tc.contract ∧
      (tc.getTokenInfo env).2.decimals = tc.decimals := by
  unfold TokenContract.getTokenInfo at h ⊢
  cases hc : tc.contract with
  | none => exact ⟨hc, rfl⟩
  | some c =>
    simp only [hc] at h ⊢
    cases hr : env.chain.readInfo c.address with
    | error e' => exact ⟨rfl, rfl⟩
    | ok r => simp [hr] at h

theorem getBalance_frame (tc : TokenContract) (env : Env) (user : String) :
    (tc.getBalance env user).2.contract = tc.contract ∧
      (tc.getBalance env user).2.decimals = tc.decimals := by
  unfold TokenContract.getBalance
  repeat' split
  all_goals exact ⟨rfl, rfl⟩

theorem getAllowance_frame (tc : TokenContract) (env : Env) (owner spender : String) :
    (tc.getAllowance env owner spender).2.contract = tc.contract ∧
      (tc.getAllowance env owner spender).2.decimals = tc.decimals := by
  unfold TokenContract.getAllowance
  repeat' split
  all_goals exact ⟨rfl, rfl⟩

theorem sendAndWait_frame (tc : TokenContract) (env : Env) (method : String)
    (call : String → Call) :
    (tc.sendAndWait env method call).2.contract = tc.contract ∧
      (tc.sendAndWait env method call).2.decimals = tc.decimals := by
  unfold TokenContract.sendAndWait
  repeat' split
  all_goals exact ⟨rfl, rfl⟩

theorem write_frame (tc : TokenContract) (env : Env) (w : WriteRequest) :
    (tc.write env w).2.contract = tc.contract ∧ (tc.write env w).2.decimals = tc.decimals := by
  cases w <;>
    simp only [TokenContract.write, TokenContract.transfer, TokenContract.approve,
      TokenContract.transferFrom, TokenContract.burn] <;>
    split <;> first | exact ⟨rfl, rfl⟩ | exact sendAndWait_frame _ _ _ _

theorem setupEventListeners_frame (tc : TokenContract) :
    tc.setupEventListeners.contract = tc.contract ∧
      tc.setupEventListeners.decimals = tc.decimals := by
  unfold TokenContract.setupEventListeners
  split <;> exact ⟨rfl, rfl⟩

/-- One call on a bound object keeps the contract bound, and changes the cached
decimals only when it is a `getTokenInfo` that succeeds: then to the count it
read from the bound address. -/
theorem perform_frame (tc : TokenContract) (op : ContractOp) (c : Contract)
    (hc : tc.contract = some c) :
    (tc.perform op).contract = some c ∧
      (tc.infoRead op = none → (tc.perform op).decimals = tc.decimals) ∧
      (∀ info, tc.infoRead op = some info →
        (tc.perform op).decimals = info.decimals ∧
        ∃ env, op = .getTokenInfo env ∧ env.chain.decimals c.address = .ok info.decimals) := by
  cases op with
  | init => exact ⟨hc, fun _ => rfl, fun _ h => by simp [TokenContract.infoRead] at h⟩
  | getTokenInfo env =>
    simp only [TokenContract.perform, TokenContract.infoRead]
    rcases hr : tc.getTokenInfo env with ⟨r, tc'⟩
    cases r with
    | error e =>
      have hf := getTokenInfo_error tc env e (by rw [hr])
      rw [hr] at hf
      exact ⟨hf.1.trans hc, fun _ => hf.2, fun _ h => by simp at h⟩
    | ok info =>
      obtain ⟨c', hc1, hc2, hd, hchain, -⟩ := getTokenInfo_ok _ _ _ _ hr
      rw [hc] at hc1
      cases hc1
      refine ⟨hc2, fun h => by simp at h, ?_⟩
      intro info' h
      simp only [Option.some.injEq] at h
      subst h
      exact ⟨hd, env, rfl, hchain⟩
  | getBalance env user =>
    have hf := getBalance_frame tc env user
    exact ⟨hf.1.trans hc, fun _ => hf.2, fun _ h => by simp [TokenContract.infoRead] at h⟩
  | getAllowance env owner spender =>
    have hf := getAllowance_frame tc env owner spender
    exact ⟨hf.1.trans hc, fun _ => hf.2, fun _ h => by simp [TokenContract.infoRead] at h⟩
  | write env w =>
    have hf := write_frame tc env w
    exact ⟨hf.1.trans hc, fun _ => hf.2, fun _ h => by simp [TokenContract.infoRead] at h⟩
  | setupEventListeners =>
    have hf := setupEventListeners_frame tc
    exact ⟨hf.1.trans hc, fun _ => hf.2, fun _ h => by simp [TokenContract.infoRead] at h⟩

/-- A run of calls on a bound object keeps the contract bound; the cached
decimals at its end are those before the run when no `getTokenInfo` succeeded,
and otherwise those read by the last `getTokenInfo` that succeeded. -/
theorem performAll_frame (tc : TokenContract) (ops : List ContractOp) (c : Contract)
    (hc : tc.contract = some c) :
    (tc.performAll ops).contract = some c ∧
      (tc.lastInfo ops = none → (tc.performAll ops).decimals = tc.decimals) ∧
      (∀ info, tc.lastInfo ops = some info →
        (tc.performAll ops).decimals = info.decimals ∧
        ∃ env, ContractOp.getTokenInfo env ∈ ops ∧
          env.chain.decimals c.address = .ok info.decimals) := by
  induction ops generalizing tc with
  | nil => exact ⟨hc, fun _ => rfl, fun _ h => by simp [TokenContract.lastInfo] at h⟩
  | cons op ops ih =>
    obtain ⟨hc', hnone, hsome⟩ := perform_frame tc op c hc
    obtain ⟨ihc, ihnone, ihsome⟩ := ih (tc.perform op) hc'
    simp only [TokenContract.performAll, List.foldl_cons] at ihc ihnone ihsome ⊢
    simp only [TokenContract.lastInfo]
    cases hl : (tc.perform op).lastInfo ops with
    | some info =>
      refine ⟨ihc, fun h => by simp at h, ?_⟩
      intro info' h
      simp only [Option.some.injEq] at h
      subst h
      obtain ⟨hd, env, hmem, hchain⟩ := ihsome info hl
      exact ⟨hd, env, List.mem_cons_of_mem _ hmem, hchain⟩
    | none =>
      refine ⟨ihc, ?_, ?_⟩
      · intro h
        rw [ihnone hl, hnone h]
      · intro info h
        obtain ⟨hd, env, hop, hchain⟩ := hsome info h
        refine ⟨by rw [ihnone hl, hd], env, ?_, hchain⟩
        rw [hop]
        exact List.mem_cons_self _ _

/-- C2 amended: after `getTokenInfo` cached the decimal count of a binding and
`loadContract b` then succeeded, the load has left the cached count in place.
Whatever calls follow on the new binding (`init`, the reads, the writes,
`setupEventListeners`), `b` stays bound, and `getBalance` converts with the count
cached before the load until a `getTokenInfo` succeeds on the new binding; from
then on it converts with the count read from `b` by the last `getTokenInfo` that
succeeded. -/
theorem getBalance_converts_with_last_read_decimals (tcZero tcA : TokenContract)
    (envA env : Env) (infoA : TokenInfo) (b user : String) (ops : List ContractOp)
    (hA : tcZero.getTokenInfo envA = (.ok infoA, tcA))
    (hload : (tcA.loadContract b).1 = .ok ()) :
    (tcA.loadContract b).2.contract = some { address := b } ∧
      (tcA.loadContract b).2.decimals = infoA.decimals ∧
      ((tcA.loadContract b).2.performAll ops).contract = some { address := b } ∧
      ((tcA.loadContract b).2.lastInfo ops = none →
        ∀ balance, env.chain.balanceOf b user = .ok balance →
          (((tcA.loadContract b).2.performAll ops).getBalance env user).1 =
            .ok { value := balance, decimals := infoA.decimals }) ∧
      (∀ infoB, (tcA.loadContract b).2.lastInfo ops = some infoB →
        (∃ envB, ContractOp.getTokenInfo envB ∈ ops ∧
          envB.chain.decimals b = .ok infoB.decimals) ∧
        ∀ balance, env.chain.balanceOf b user = .ok balance →
          (((tcA.loadContract b).2.performAll ops).getBalance env user).1 =
            .ok { value := balance, decimals := infoB.decimals }) := by
  obtain ⟨cA, -, -, hdec, -, -⟩ := getTokenInfo_ok _ _ _ _ hA
  have hbound : (tcA.loadContract b).2.contract = some { address := b } := by
    rw [loadContract_ok _ _ hload]
  have hkeep : (tcA.loadContract b).2.decimals = infoA.decimals := by
    rw [loadContract_decimals, hdec]
  obtain ⟨hc, hnone, hsome⟩ := performAll_frame _ ops _ hbound
  refine ⟨hbound, hkeep, hc, ?_, ?_⟩
  · intro hl balance hb
    rw [← hkeep, ← hnone hl]
    exact getBalance_bound _ _ _ _ _ hc hb
  · intro infoB hl
    obtain ⟨hd, envB, hmem, hchain⟩ := hsome infoB hl
    refine ⟨⟨envB, hmem, hchain⟩, ?_⟩
    intro balance hb
    rw [← hd]
    exact getBalance_bound _ _ _ _ _ hc hb

/-- The amended C2 in the sample world: `tokenA` (6 decimals) cached, `tokenB`
(8 decimals) loaded. After calls among which no `getTokenInfo` succeeds,
`getBalance` converts with 6; after calls among which one succeeds, with 8. -/
theorem getBalance_converts_with_last_read_decimals_witness :
    ((((TokenContract.new.init .mk .mk).loadContract tokenA).2.getTokenInfo sampleEnv).2.loadContract
        tokenB).1 = .ok () ∧
      reboundContract.2.lastInfo callsWithoutInfo = none ∧
      ((reboundContract.2.performAll callsWithoutInfo).getBalance sampleEnv alice).1 =
        .ok { value := 2500000, decimals := 6 } ∧
      reboundContract.2.lastInfo callsWithInfo =
        some { name := "MyToken", symbol := "MTK", decimals := 8,
               totalSupply := { value := 1000000000, decimals := 8 } } ∧
      ((reboundContract.2.performAll callsWithInfo).getBalance sampleEnv alice).1 =
        .ok { value := 2500000, decimals := 8 } :=
  ⟨by decide, by decide,
    (getBalance_converts_with_last_read_decimals
      ((TokenContract.new.init .mk .mk).loadContract tokenA).2
      (((TokenContract.new.init .mk .mk).loadContract tokenA).2.getTokenInfo sampleEnv).2
      sampleEnv sampleEnv
      { name := "MyToken", symbol := "MTK", decimals := 6,
        totalSupply := { value := 1000000000, decimals := 6 } }
      tokenB alice callsWithoutInfo (by decide) (by decide)).2.2.2.1 (by decide) 2500000
      (by decide),
    by decide,
    ((getBalance_converts_with_last_read_decimals
      ((TokenContract.new.init .mk .mk).loadContract tokenA).2
      (((TokenContract.new.init .mk .mk).loadContract tokenA).2.getTokenInfo sampleEnv).2
      sampleEnv sampleEnv
      { name := "MyToken", symbol := "MTK", decimals := 6,
        totalSupply := { value := 1000000000, decimals := 6 } }
      tokenB alice callsWithInfo (by decide) (by decide)).2.2.2.2
      { name := "MyToken", symbol := "MTK", decimals := 8,
        totalSupply := { value := 1000000000, decimals := 8 } } (by decide)).2 2500000
      (by decide)⟩

/-! ### C3 -/

/-- C3 as stated fails: the sample session is bound to `tokenA` on Sepolia.
`mainnet` has the empty string as default address, so the switch loads nothing,
and the binding to `tokenA` stays: `getBalance` afterwards does not fail but reads
through the old binding. The same happens for `localhost`, whose default is a
placeholder that is not an address. -/
theorem switchNetwork_without_default_keeps_old_binding :
    connectedApp.tokenContract.contract = some { address := tokenA } ∧
      truthy (DEFAULT_CONTRACT_ADDRESSES "mainnet") = false ∧
      (connectedApp.switchNetwork sampleEnv "mainnet").tokenContract.contract =
        some { address := tokenA } ∧
      ((connectedApp.switchNetwork sampleEnv "mainnet").tokenContract.getBalance sampleEnv alice).1 =
        .ok { value := 2500000, decimals := 6 } ∧
      (connectedApp.switchNetwork sampleEnv "localhost").tokenContract.contract =
        some { address := tokenA } ∧
      ((connectedApp.switchNetwork sampleEnv "localhost").tokenContract.getBalance
        sampleEnv alice).1 = .ok { value := 2500000, decimals := 6 } := by
  decide

/-- C3 amended: a `switchNetwork` to a key whose default contract address is
missing, empty or not a valid address loads nothing and leaves the binding as
it was. If no contract was bound, `getBalance` afterwards fails with
`Contract not loaded.`; if a contract was bound, it stays bound and `getBalance`
reads through it. -/
theorem switchNetwork_without_default_leaves_binding (s : TokenDApp) (env envLater : Env)
    (key user : String)
    (h : truthy (DEFAULT_CONTRACT_ADDRESSES key) = false ∨
      ∃ a, DEFAULT_CONTRACT_ADDRESSES key = some a ∧ env.isAddress a = false) :
    (s.switchNetwork env key).tokenContract = s.tokenContract ∧
      (s.tokenContract.contract = none →
        ((s.switchNetwork env key).tokenContract.getBalance envLater user).1 =
          .error contractNotLoaded) ∧
      (∀ c balance, s.tokenContract.contract = some c →
        envLater.chain.balanceOf c.address user = .ok balance →
        ((s.switchNetwork env key).tokenContract.getBalance envLater user).1 =
          .ok { value := balance, decimals := s.tokenContract.decimals }) := by
  have hkeep : (s.switchNetwork env key).tokenContract = s.tokenContract := by
    simp only [TokenDApp.switchNetwork]
    split
    · rfl
    · split
      · rfl
      · split
        · rfl
        · split
          · rfl
          · rename_i address hdef
            split_ifs with ht
            · rcases h with h | ⟨a, ha, hinv⟩
              · rw [h] at ht
                exact absurd ht (by decide)
              · rw [hdef] at ha
                cases ha
                simp [TokenDApp.loadContract, hinv, TokenDApp.showStatus]
            · rfl
  refine ⟨hkeep, ?_, ?_⟩
  · intro hc
    rw [hkeep, getBalance_unbound _ _ _ hc]
  · intro c balance hc hb
    rw [hkeep]
    exact getBalance_bound _ _ _ _ _ hc hb

/-- The amended C3 on the sample session, bound on Sepolia and switched to
`mainnet`. -/
theorem switchNetwork_without_default_leaves_binding_witness :
    truthy (DEFAULT_CONTRACT_ADDRESSES "mainnet") = false ∧
      (connectedApp.switchNetwork sampleEnv "mainnet").tokenContract =
        connectedApp.tokenContract ∧
      ((TokenDApp.new.switchNetwork sampleEnv "mainnet").tokenContract.getBalance
        sampleEnv alice).1 = .error contractNotLoaded :=
  ⟨by decide,
    (switchNetwork_without_default_leaves_binding connectedApp sampleEnv sampleEnv "mainnet"
      alice (Or.inl (by decide))).1,
    (switchNetwork_without_default_leaves_binding TokenDApp.new sampleEnv sampleEnv "mainnet"
      alice (Or.inl (by decide))).2.1 (by decide)⟩

/-! ### C4 -/

/-- C4: whenever the `TokenContract` write behind one of the four handlers
fails, whatever the cause, the handler leaves the transaction history exactly
as it was. -/
theorem failed_write_leaves_history (s : TokenDApp) (env : Env) (w : WriteRequest)
    (e : JsError) (h : (s.tokenContract.write env w).1 = .error e) :
    (s.handle env w).txHistory = s.txHistory := by
  cases w with
  | transfer toAddr amount =>
    simp only [TokenContract.write] at h
    simp only [TokenDApp.handle, TokenDApp.handleTransfer, TokenDApp.showStatus]
    rcases hr : s.tokenContract.transfer env toAddr amount with ⟨r, tc⟩
    rw [hr] at h
    simp only at h
    subst h
    rfl
  | approve spender amount =>
    simp only [TokenContract.write] at h
    simp only [TokenDApp.handle, TokenDApp.handleApprove, TokenDApp.showStatus]
    rcases hr : s.tokenContract.approve env spender amount with ⟨r, tc⟩
    rw [hr] at h
    simp only at h
    subst h
    rfl
  | transferFrom sender toAddr amount =>
    simp only [TokenContract.write] at h
    simp only [TokenDApp.handle, TokenDApp.handleTransferFrom, TokenDApp.showStatus]
    rcases hr : s.tokenContract.transferFrom env sender toAddr amount with ⟨r, tc⟩
    rw [hr] at h
    simp only at h
    subst h
    rfl
  | burn amount =>
    simp only [TokenContract.write] at h
    simp only [TokenDApp.handle, TokenDApp.handleBurn, TokenDApp.showStatus]
    rcases hr : s.tokenContract.burn env amount with ⟨r, tc⟩
    rw [hr] at h
    simp only at h
    subst h
    rfl

/-- C4 on the sample session holding one record: a burn whose transaction
reverts leaves that record alone. -/
theorem failed_write_leaves_history_witness :
    (transferredApp.tokenContract.write revertingEnv (.burn "1")).1 =
        .error (.rejected "transaction failed") ∧
      (transferredApp.handle revertingEnv (.burn "1")).txHistory = transferredApp.txHistory ∧
      transferredApp.txHistory.length = 1 :=
  ⟨by decide,
    failed_write_leaves_history transferredApp revertingEnv (.burn "1")
      (.rejected "transaction failed") (by decide),
    by decide⟩

/-! ### Helper lemmas on the write path and the history -/

theorem sendAndWait_ok (tc tc' : TokenContract) (env : Env) (method : String)
    (call : String → Call) (r : Receipt)
    (h : tc.sendAndWait env method call = (.ok r, tc')) :
    ∃ c tx, tc.contract = some c ∧ env.chain.send (call c.address) = .ok tx ∧
      env.chain.wait tx = .ok r ∧
      tc' = { tc with calls := tc.calls ++ [call c.address] ++ [.wait tx] } := by
  unfold TokenContract.sendAndWait at h
  cases hc : tc.contract with
  | none => simp [hc] at h
  | some c =>
    simp only [hc] at h
    cases hs : env.chain.send (call c.address) with
    | error e => simp [hs] at h
    | ok tx =>
      simp only [hs, Prod.mk.injEq] at h
      exact ⟨c, tx, rfl, hs, h.1, h.2.symm⟩

theorem write_ok (tc tc' : TokenContract) (env : Env) (w : WriteRequest) (r : Receipt)
    (h : tc.write env w = (.ok r, tc')) :
    ∃ c call tx, tc.contract = some c ∧ tc'.contract = some c ∧ call.isWrite = true ∧
      tc'.calls = tc.calls ++ [call] ++ [.wait tx] := by
  cases w with
  | transfer toAddr amount =>
    simp only [TokenContract.write, TokenContract.transfer] at h
    cases hp : env.parseUnits amount tc.decimals with
    | error e => simp [hp] at h
    | ok v =>
      simp only [hp] at h
      obtain ⟨c, tx, hc, -, -, htc⟩ := sendAndWait_ok _ _ _ _ _ _ h
      exact ⟨c, .transfer c.address toAddr v, tx, hc, by rw [htc, hc], rfl, by rw [htc]⟩
  | approve spender amount =>
    simp only [TokenContract.write, TokenContract.approve] at h
    cases hp : env.parseUnits amount tc.decimals with
    | error e => simp [hp] at h
    | ok v =>
      simp only [hp] at h
      obtain ⟨c, tx, hc, -, -, htc⟩ := sendAndWait_ok _ _ _ _ _ _ h
      exact ⟨c, .approve c.address spender v, tx, hc, by rw [htc, hc], rfl, by rw [htc]⟩
  | transferFrom sender toAddr amount =>
    simp only [TokenContract.write, TokenContract.transferFrom] at h
    cases hp : env.parseUnits amount tc.decimals with
    | error e => simp [hp] at h
    | ok v =>
      simp only [hp] at h
      obtain ⟨c, tx, hc, -, -, htc⟩ := sendAndWait_ok _ _ _ _ _ _ h
      exact ⟨c, .transferFrom c.address sender toAddr v, tx, hc, by rw [htc, hc], rfl, by rw [htc]⟩
  | burn amount =>
    simp only [TokenContract.write, TokenContract.burn] at h
    cases hp : env.parseUnits amount tc.decimals with
    | error e => simp [hp] at h
    | ok v =>
      simp only [hp] at h
      obtain ⟨c, tx, hc, -, -, htc⟩ := sendAndWait_ok _ _ _ _ _ _ h
      exact ⟨c, .burn c.address v, tx, hc, by rw [htc, hc], rfl, by rw [htc]⟩

theorem removeOldest_eq_take (fuel : Nat) (children : List TxItem)
    (h : children.length ≤ fuel + 10) : removeOldest fuel children = children.take 10 := by
  induction fuel generalizing children with
  | zero =>
    rw [removeOldest, List.take_of_length_le (by omega)]
  | succ n ih =>
    rw [removeOldest]
    split_ifs with hlen
    · rw [ih _ (by rw [List.length_dropLast]; omega), List.dropLast_eq_take, List.take_take]
      congr 1
      omega
    · rw [List.take_of_length_le (by omega)]

theorem explorerUrl_ok (key : String) (h : key = "sepolia" ∨ key = "mainnet") :
    ∃ url, explorerUrl key = .ok url := by
  rcases h with h | h <;> subst h
  · exact ⟨"https://sepolia.etherscan.io", by decide⟩
  · exact ⟨"https://etherscan.io", by decide⟩

theorem addTransaction_ok (s : TokenDApp) (type hash url : String)
    (h : explorerUrl s.currentNetwork = .ok url) :
    s.addTransaction type hash =
      .ok { s with txHistory :=
        ({ type := type, explorerUrl := url, hash := hash } :: s.txHistory).take 10 } := by
  simp only [TokenDApp.addTransaction, h]
  rw [removeOldest_eq_take _ _ (by omega)]

theorem refreshTokenInfo_txHistory (s : TokenDApp) (env : Env) :
    (s.refreshTokenInfo env).txHistory = s.txHistory := by
  simp only [TokenDApp.refreshTokenInfo, TokenDApp.showStatus]
  repeat' split
  all_goals rfl

theorem getBalance_calls_grow (tc : TokenContract) (env : Env) (user : String) :
    tc.calls <+: (tc.getBalance env user).2.calls := by
  unfold TokenContract.getBalance
  repeat' split
  all_goals simp

theorem refreshTokenInfo_reads (s : TokenDApp) (env : Env) (c : Contract)
    (hc : s.tokenContract.contract = some c) :
    s.tokenContract.calls ++
        [.name c.address, .symbol c.address, .decimals c.address, .totalSupply c.address] <+:
      (s.refreshTokenInfo env).tokenContract.calls := by
  have hinfo : (s.tokenContract.getTokenInfo env).2.calls = s.tokenContract.calls ++
      [.name c.address, .symbol c.address, .decimals c.address, .totalSupply c.address] := by
    simp only [TokenContract.getTokenInfo, hc]
    split <;> rfl
  unfold TokenDApp.refreshTokenInfo
  rw [hc]
  simp only
  rcases hr : s.tokenContract.getTokenInfo env with ⟨r, tc⟩
  rw [hr] at hinfo
  simp only at hinfo
  cases r with
  | error e => simp [TokenDApp.showStatus, hinfo]
  | ok info =>
    simp only
    cases hu : s.userAddress with
    | none => simp [hinfo]
    | some user =>
      simp only
      have hpre := getBalance_calls_grow tc env user
      rw [hinfo] at hpre
      rcases hb : tc.getBalance env user with ⟨rb, tcb⟩
      rw [hb] at hpre
      cases rb <;> simpa [TokenDApp.showStatus] using hpre

/-! ### C5 -/

/-- C5 as stated fails, twice. On Sepolia a successful `handleApprove` records
the transaction but issues no read afterwards (no `refreshTokenInfo`), whereas
`handleTransfer` does. On Local Anvil, which has no block explorer, a transfer
that was mined leaves the history empty and reports a failure. -/
theorem successful_write_not_always_recorded_and_refreshed :
    (connectedApp.tokenContract.approve sampleEnv bob "1").1 =
        .ok { transactionHash := "0xabcdef0123456789" } ∧
      (connectedApp.handleApprove sampleEnv bob "1").txHistory =
        [{ type := "Approval", explorerUrl := "https://sepolia.etherscan.io",
           hash := "0xabcdef0123456789" }] ∧
      (connectedApp.handleApprove sampleEnv bob "1").tokenContract.calls =
        connectedApp.tokenContract.calls ++
          [.approve tokenA bob 1000000, .wait "0xabcdef0123456789"] ∧
      (connectedApp.handleTransfer sampleEnv bob "1").tokenContract.calls =
        connectedApp.tokenContract.calls ++
          [.transfer tokenA bob 1000000, .wait "0xabcdef0123456789", .name tokenA,
           .symbol tokenA, .decimals tokenA, .totalSupply tokenA, .balanceOf tokenA alice] ∧
      localhostApp.currentNetwork = "localhost" ∧
      (localhostApp.tokenContract.transfer sampleEnv bob "1").1 =
        .ok { transactionHash := "0xabcdef0123456789" } ∧
      (localhostApp.handleTransfer sampleEnv bob "1").txHistory = [] ∧
      (localhostApp.handleTransfer sampleEnv bob "1").tokenContract.calls =
        localhostApp.tokenContract.calls ++
          [.transfer tokenA bob 1000000, .wait "0xabcdef0123456789"] ∧
      (localhostApp.handleTransfer sampleEnv bob "1").statusMessage =
        some ("Transfer failed: Cannot read properties of undefined (reading '0')", "error") := by
  decide

/-- C5 amended: on a selected network with a block explorer (`sepolia`,
`mainnet`), when the write behind a handler succeeds with a receipt, one record
of the matching kind with the receipt's hash is put at the head of the history
(the history being cut to its first 10 records). `handleTransfer`,
`handleTransferFrom` and `handleBurn` then refresh: the four reads of
`getTokenInfo` follow the write. `handleApprove` issues no further call. -/
theorem successful_write_records_and_refreshes (s : TokenDApp) (env : Env)
    (w : WriteRequest) (r : Receipt) (tc : TokenContract)
    (hnet : s.currentNetwork = "sepolia" ∨ s.currentNetwork = "mainnet")
    (hw : s.tokenContract.write env w = (.ok r, tc)) :
    ∃ url, explorerUrl s.currentNetwork = .ok url ∧
      (s.handle env w).txHistory =
        ({ type := w.kind, explorerUrl := url, hash := r.transactionHash } ::
          s.txHistory).take 10 ∧
      (w.kind ≠ "Approval" → ∃ c, tc.contract = some c ∧
        tc.calls ++
            [.name c.address, .symbol c.address, .decimals c.address, .totalSupply c.address] <+:
          (s.handle env w).tokenContract.calls) ∧
      (w.kind = "Approval" → (s.handle env w).tokenContract = tc) := by
  obtain ⟨url, hurl⟩ := explorerUrl_ok _ hnet
  obtain ⟨c, call, tx, -, hc, -, -⟩ := write_ok _ _ _ _ _ hw
  refine ⟨url, hurl, ?_⟩
  cases w with
  | transfer toAddr amount =>
    simp only [TokenContract.write] at hw
    simp only [TokenDApp.handle, TokenDApp.handleTransfer, TokenDApp.showStatus, hw]
    rw [addTransaction_ok
      { s with tokenContract := tc, statusMessage := some ("Sending transaction...", "info") } _ _ url hurl]
    dsimp only
    refine ⟨?_, ?_, ?_⟩
    · simp only [refreshTokenInfo_txHistory, WriteRequest.kind]
    · intro _
      exact ⟨c, hc, refreshTokenInfo_reads ⟨_, _, _, _, tc, _, _, _, _⟩ env c hc⟩
    · intro hk
      simp only [WriteRequest.kind] at hk
      exact absurd hk (by decide)
  | approve spender amount =>
    simp only [TokenContract.write] at hw
    simp only [TokenDApp.handle, TokenDApp.handleApprove, TokenDApp.showStatus, hw]
    rw [addTransaction_ok
      { s with tokenContract := tc, statusMessage := some ("Sending approval...", "info") } _ _ url hurl]
    dsimp only
    refine ⟨?_, ?_, ?_⟩
    · simp only [WriteRequest.kind]
    · intro hk
      exact absurd rfl hk
    · intro _
      rfl
  | transferFrom sender toAddr amount =>
    simp only [TokenContract.write] at hw
    simp only [TokenDApp.handle, TokenDApp.handleTransferFrom, TokenDApp.showStatus, hw]
    rw [addTransaction_ok
      { s with tokenContract := tc, statusMessage := some ("Executing transfer from...", "info") } _ _ url hurl]
    dsimp only
    refine ⟨?_, ?_, ?_⟩
    · simp only [refreshTokenInfo_txHistory, WriteRequest.kind]
    · intro _
      exact ⟨c, hc, refreshTokenInfo_reads ⟨_, _, _, _, tc, _, _, _, _⟩ env c hc⟩
    · intro hk
      simp only [WriteRequest.kind] at hk
      exact absurd hk (by decide)
  | burn amount =>
    simp only [TokenContract.write] at hw
    simp only [TokenDApp.handle, TokenDApp.handleBurn, TokenDApp.showStatus, hw]
    rw [addTransaction_ok
      { s with tokenContract := tc, statusMessage := some ("Burning tokens...", "info") } _ _ url hurl]
    dsimp only
    refine ⟨?_, ?_, ?_⟩
    · simp only [refreshTokenInfo_txHistory, WriteRequest.kind]
    · intro _
      exact ⟨c, hc, refreshTokenInfo_reads ⟨_, _, _, _, tc, _, _, _, _⟩ env c hc⟩
    · intro hk
      simp only [WriteRequest.kind] at hk
      exact absurd hk (by decide)

/-- The amended C5 on the sample session on Sepolia: a burn that is mined. -/
theorem successful_write_records_and_refreshes_witness :
    (connectedApp.currentNetwork = "sepolia" ∨ connectedApp.currentNetwork = "mainnet") ∧
      connectedApp.tokenContract.write sampleEnv (.burn "1") =
        (.ok { transactionHash := "0xabcdef0123456789" },
          (connectedApp.tokenContract.write sampleEnv (.burn "1")).2) ∧
      ∃ url, explorerUrl connectedApp.currentNetwork = .ok url ∧
        (connectedApp.handle sampleEnv (.burn "1")).txHistory =
          ({ type := "Burn", explorerUrl := url, hash := "0xabcdef0123456789" } ::
            connectedApp.txHistory).take 10 :=
  ⟨Or.inl (by decide), by decide,
    (successful_write_records_and_refreshes connectedApp sampleEnv (.burn "1")
      { transactionHash := "0xabcdef0123456789" }
      (connectedApp.tokenContract.write sampleEnv (.burn "1")).2
      (Or.inl (by decide)) (by decide)).imp (fun _ h => ⟨h.1, h.2.1⟩)⟩

/-! ### C6 -/

/-- C6, evaluated on the code: on Local Anvil, a network of the registry without
block explorer, `addTransaction` throws while it builds the link and puts no
record at the head of the history. -/
theorem addTransaction_throws_without_block_explorer :
    localhostApp.currentNetwork = "localhost" ∧
      (NETWORKS "localhost").map (fun n => n.blockExplorerUrls) = some none ∧
      localhostApp.addTransaction "Transfer" "0xabcdef0123456789" =
        .error (.typeError "Cannot read properties of undefined (reading '0')") := by
  decide

theorem take_append_take (n : Nat) (xs ys : List TxItem) :
    (xs ++ (ys.take n)).take n = (xs ++ ys).take n := by
  rw [List.take_append_eq_append_take, List.take_append_eq_append_take, List.take_take]
  congr 2
  omega

/-- On a network with a block explorer every call returns, and after any run of
calls the history is the first 10 of: the new records, newest first, followed by
the earlier history. -/
theorem addTransactions_keeps_newest_ten (s : TokenDApp) (url : String)
    (records : List (String × String)) (h : explorerUrl s.currentNetwork = .ok url)
    (hlen : s.txHistory.length ≤ 10) :
    ∃ s', s.addTransactions records = .ok s' ∧ s'.txHistory.length ≤ 10 ∧
      s'.txHistory =
        ((records.reverse.map fun p => ({ type := p.1, explorerUrl := url, hash := p.2 } : TxItem))
          ++ s.txHistory).take 10 := by
  induction records generalizing s with
  | nil =>
    exact ⟨s, rfl, hlen, by simp [List.take_of_length_le hlen]⟩
  | cons p rest ih =>
    obtain ⟨type, hash⟩ := p
    simp only [TokenDApp.addTransactions, addTransaction_ok s type hash url h]
    obtain ⟨s', hs', hlen, hhist⟩ := ih
      { s with txHistory :=
        ({ type := type, explorerUrl := url, hash := hash } :: s.txHistory).take 10 } h
      (by simp only [List.length_take]; omega)
    refine ⟨s', hs', hlen, ?_⟩
    rw [hhist]
    simp only [List.reverse_cons, List.map_append, List.map_cons, List.map_nil,
      List.append_assoc, List.singleton_append]
    exact take_append_take _ _ _

/-! ### C7 -/

theorem refreshTokenInfo_currentNetwork (s : TokenDApp) (env : Env) :
    (s.refreshTokenInfo env).currentNetwork = s.currentNetwork := by
  simp only [TokenDApp.refreshTokenInfo, TokenDApp.showStatus]
  repeat' split
  all_goals rfl

theorem loadContract_currentNetwork (s : TokenDApp) (env : Env) (address : String) :
    (s.loadContract env address).currentNetwork = s.currentNetwork := by
  simp only [TokenDApp.loadContract, TokenDApp.showStatus]
  repeat' split
  all_goals simp only [refreshTokenInfo_currentNetwork]

/-- Whatever the outcome, `switchNetwork` leaves the requested key selected. -/
theorem switchNetwork_currentNetwork (s : TokenDApp) (env : Env) (key : String) :
    (s.switchNetwork env key).currentNetwork = key := by
  simp only [TokenDApp.switchNetwork, TokenDApp.showStatus]
  repeat' split
  all_goals simp only [loadContract_currentNetwork]

/-- C7, evaluated on the code: a switch to the unknown key `goerli` is reported
as a failure (`Network 'goerli' not configured.`), and a switch to `mainnet` that
the wallet refuses is reported as a failure; after both, the selected network
key is the requested key, not the key selected before the call. -/
theorem failed_switchNetwork_still_sets_currentNetwork :
    TokenDApp.new.currentNetwork = "sepolia" ∧ NETWORKS "goerli" = none ∧
      (TokenDApp.new.switchNetwork sampleEnv "goerli").statusMessage =
        some ("Failed to switch network: Network 'goerli' not configured.", "error") ∧
      (TokenDApp.new.switchNetwork sampleEnv "goerli").currentNetwork = "goerli" ∧
      connectedApp.currentNetwork = "sepolia" ∧
      (connectedApp.switchNetwork refusingEnv "mainnet").statusMessage =
        some ("Failed to switch network: User rejected the request.", "error") ∧
      (connectedApp.switchNetwork refusingEnv "mainnet").currentNetwork = "mainnet" := by
  decide

/-! ### C8 -/

/-- An unbound write whose amount converts raises a `TypeError` and issues no
transport call. -/
theorem unbound_write_typeError (tc : TokenContract) (env : Env) (w : WriteRequest) (v : Int)
    (hc : tc.contract = none) (hv : env.parseUnits w.amount tc.decimals = .ok v) :
    ∃ m, tc.write env w = (.error (.typeError m), tc) := by
  cases w <;>
    simp only [WriteRequest.amount] at hv <;>
    simp [TokenContract.write, TokenContract.transfer, TokenContract.approve,
      TokenContract.transferFrom, TokenContract.burn, TokenContract.sendAndWait, hc, hv]

/-- C8, evaluated on the code: on a fresh `TokenContract` (no contract bound)
the amount `1` converts, and each of the four writes then fails with the
engine's `TypeError` for reading a property of `null`, leaving the object
untouched; the three reads fail with `Contract not loaded.`. -/
theorem unbound_write_fails_with_typeError_not_contractNotLoaded :
    TokenContract.new.contract = none ∧
      sampleEnv.parseUnits "1" TokenContract.new.decimals = .ok 1000000000000000000 ∧
      TokenContract.new.transfer sampleEnv bob "1" =
        (.error (.typeError "Cannot read properties of null (reading 'transfer')"),
          TokenContract.new) ∧
      TokenContract.new.approve sampleEnv bob "1" =
        (.error (.typeError "Cannot read properties of null (reading 'approve')"),
          TokenContract.new) ∧
      TokenContract.new.transferFrom sampleEnv alice bob "1" =
        (.error (.typeError "Cannot read properties of null (reading 'transferFrom')"),
          TokenContract.new) ∧
      TokenContract.new.burn sampleEnv "1" =
        (.error (.typeError "Cannot read properties of null (reading 'burn')"),
          TokenContract.new) ∧
      (TokenContract.new.getTokenInfo sampleEnv).1 = .error contractNotLoaded ∧
      (TokenContract.new.getBalance sampleEnv alice).1 = .error contractNotLoaded ∧
      (TokenContract.new.getAllowance sampleEnv alice bob).1 = .error contractNotLoaded ∧
      contractNotLoaded = .error "Contract not loaded." := by
  decide

/-! ### C9 -/

/-- C9 as stated fails: after `setupEventListeners` ran twice on the binding to
`tokenA`, two `Transfer` and two `Approval` handlers are registered, and after
`loadContract tokenB` all four are still registered, on `tokenA`, while `tokenB`
is bound. Loading the bound address again from the application stacks in the
same way. -/
theorem subscriptions_stack_and_outlive_binding :
    stackedContract.contract = some { address := tokenB } ∧
      stackedContract.listeners =
        [{ contract := tokenA, event := "Transfer" }, { contract := tokenA, event := "Approval" },
         { contract := tokenA, event := "Transfer" }, { contract := tokenA, event := "Approval" }] ∧
      connectedApp.tokenContract.listeners.length = 2 ∧
      (connectedApp.loadContract sampleEnv tokenA).tokenContract.listeners.length = 4 := by
  decide

theorem apply_listeners (tc : TokenContract) (op : BindingOp) :
    tc.listeners <+: (tc.apply op).listeners ∧
      (tc.apply op).listeners.length = tc.listeners.length +
        2 * (if op = .setupEventListeners ∧ tc.contract.isSome then 1 else 0) := by
  cases op with
  | loadContract address =>
    simp [TokenContract.apply, loadContract_listeners]
  | setupEventListeners =>
    cases hc : tc.contract <;> simp [TokenContract.apply, TokenContract.setupEventListeners, hc]

/-- C9 amended: handlers are only ever added. After any sequence of
`loadContract` and `setupEventListeners` calls the handlers registered before
are all still registered; every `setupEventListeners` call that finds a contract
bound adds one `Transfer` and one `Approval` handler on that contract, a call
that finds none adds nothing, and `loadContract` removes nothing. -/
theorem subscriptions_only_grow (tc : TokenContract) (ops : List BindingOp) :
    tc.listeners <+: (tc.applyAll ops).listeners ∧
      (tc.applyAll ops).listeners.length =
        tc.listeners.length + 2 * effectiveSetups tc ops ∧
      (∀ address, (tc.loadContract address).2.listeners = tc.listeners) ∧
      (∀ c, tc.contract = some c →
        tc.setupEventListeners.listeners = tc.listeners ++
          [{ contract := c.address, event := "Transfer" },
           { contract := c.address, event := "Approval" }]) ∧
      (tc.contract = none → tc.setupEventListeners = tc) := by
  refine ⟨?_, ?_, loadContract_listeners tc, ?_, ?_⟩
  · induction ops generalizing tc with
    | nil => exact List.prefix_refl _
    | cons op ops ih =>
      exact (apply_listeners tc op).1.trans (ih (tc.apply op))
  · induction ops generalizing tc with
    | nil => rfl
    | cons op ops ih =>
      have h := ih (tc.apply op)
      simp only [TokenContract.applyAll, List.foldl_cons] at h ⊢
      rw [h, (apply_listeners tc op).2, effectiveSetups]
      ring
  · intro c hc
    simp [TokenContract.setupEventListeners, hc]
  · intro hc
    simp [TokenContract.setupEventListeners, hc]

/-! ### C10 -/

theorem isUnsignedDecimal_minus (cs : List Char) : isUnsignedDecimal ('-' :: cs) = false := by
  have hw : wholePart ('-' :: cs) = '-' :: wholePart cs := by
    simp only [wholePart]
    rw [List.takeWhile_cons_of_pos (by decide)]
  simp only [isUnsignedDecimal, hw, List.all_cons]
  have : Char.isDigit '-' = false := by decide
  simp [this]

theorem parseUnits_rejects (amount : String) (decimals : Nat)
    (hbad : decimals < fractionalDigits amount ∨ denotesNegative amount = true ∨
      isNumeric amount = false) :
    parseUnits amount decimals = .error invalidAmount := by
  unfold parseUnits
  rcases hbad with h | h | h
  · simp only
    split_ifs <;> rfl
  · have hneg : isUnsignedDecimal amount.toList = false := by
      unfold denotesNegative at h
      split at h
      · rename_i cs heq
        rw [heq]
        exact isUnsignedDecimal_minus cs
      · exact absurd h (by decide)
    simp only [hneg, Bool.not_false, if_true]
  · have hnum : isUnsignedDecimal amount.toList = false := by
      simp only [isNumeric, Bool.or_eq_false_iff] at h
      exact h.1
    simp only [hnum, Bool.not_false, if_true]

/-- C10: for every cached decimal count and every amount that has more
fractional digits than that count, is a negative numeral, or is not numeric,
the conversion to base units fails with `InvalidAmount`; each of the four
writes then fails with that error and leaves the `TokenContract` as it was, so
no call reaches the transport. -/
theorem bad_amount_fails_write_before_submission (tc : TokenContract) (env : Env)
    (w : WriteRequest) (henv : env.parseUnits = parseUnits)
    (hbad : tc.decimals < fractionalDigits w.amount ∨ denotesNegative w.amount = true ∨
      isNumeric w.amount = false) :
    parseUnits w.amount tc.decimals = .error invalidAmount ∧
      tc.write env w = (.error invalidAmount, tc) := by
  have hrej := parseUnits_rejects _ _ hbad
  refine ⟨hrej, ?_⟩
  cases w <;>
    simp only [WriteRequest.amount] at hrej <;>
    simp [TokenContract.write, TokenContract.transfer, TokenContract.approve,
      TokenContract.transferFrom, TokenContract.burn, henv, hrej]

/-- C10 on the sample binding, which caches 6 decimals: amounts with seven
fractional digits, with a minus sign, and with letters. -/
theorem bad_amount_fails_write_before_submission_witness :
    (connectedApp.tokenContract.decimals < fractionalDigits "1.1234567" ∧
        connectedApp.tokenContract.write sampleEnv (.transfer bob "1.1234567") =
          (.error invalidAmount, connectedApp.tokenContract)) ∧
      (denotesNegative "-1" = true ∧
        connectedApp.tokenContract.write sampleEnv (.burn "-1") =
          (.error invalidAmount, connectedApp.tokenContract)) ∧
      (isNumeric "ten" = false ∧
        connectedApp.tokenContract.write sampleEnv (.approve bob "ten") =
          (.error invalidAmount, connectedApp.tokenContract)) :=
  ⟨⟨by decide,
      (bad_amount_fails_write_before_submission connectedApp.tokenContract sampleEnv
        (.transfer bob "1.1234567") rfl (Or.inl (by decide))).2⟩,
    ⟨by decide,
      (bad_amount_fails_write_before_submission connectedApp.tokenContract sampleEnv
        (.burn "-1") rfl (Or.inr (Or.inl (by decide)))).2⟩,
    ⟨by decide,
      (bad_amount_fails_write_before_submission connectedApp.tokenContract sampleEnv
        (.approve bob "ten") rfl (Or.inr (Or.inr (by decide)))).2⟩⟩

/-! ### C11 -/

theorem digitChar_value (r : Nat) (h : r < 10) :
    (Nat.digitChar r).toNat - '0'.toNat = r := by
  interval_cases r <;> rfl

theorem digitChar_isDigit (r : Nat) (h : r < 10) : (Nat.digitChar r).isDigit = true := by
  interval_cases r <;> rfl

theorem digitsValue_append_singleton (cs : List Char) (c : Char) :
    digitsValue (cs ++ [c]) = digitsValue cs * 10 + (c.toNat - '0'.toNat) := by
  simp [digitsValue, List.foldl_append]

theorem foldl_digits_acc (cs : List Char) (acc : Nat) :
    cs.foldl (fun acc c => acc * 10 + (c.toNat - '0'.toNat)) acc =
      acc * 10 ^ cs.length + digitsValue cs := by
  induction cs generalizing acc with
  | nil => simp [digitsValue]
  | cons c cs ih =>
    simp only [List.foldl_cons, digitsValue, List.length_cons]
    rw [ih, ih (0 * 10 + (c.toNat - '0'.toNat))]
    ring

theorem digitsValue_cons (c : Char) (cs : List Char) :
    digitsValue (c :: cs) = (c.toNat - '0'.toNat) * 10 ^ cs.length + digitsValue cs := by
  rw [digitsValue, List.foldl_cons, foldl_digits_acc]
  ring

theorem digitsValue_wholeDigits (fuel n : Nat) (h : n ≤ fuel) :
    digitsValue (wholeDigits fuel n) = n := by
  induction fuel generalizing n with
  | zero =>
    have hn : n = 0 := by omega
    subst hn
    rfl
  | succ fuel ih =>
    rw [wholeDigits]
    split_ifs with hlt
    · rw [digitsValue_cons, digitChar_value n hlt]
      simp [digitsValue]
    · rw [digitsValue_append_singleton, ih (n / 10) (by omega),
        digitChar_value _ (Nat.mod_lt _ (by decide))]
      omega

theorem wholeDigits_all_digit (fuel n : Nat) :
    (wholeDigits fuel n).all Char.isDigit = true := by
  induction fuel generalizing n with
  | zero => rfl
  | succ fuel ih =>
    rw [wholeDigits]
    split_ifs with hlt
    · simp [digitChar_isDigit n hlt]
    · simp only [List.all_append, ih, List.all_cons, List.all_nil, Bool.and_true, Bool.true_and]
      exact digitChar_isDigit _ (Nat.mod_lt _ (by decide))

theorem wholeDigits_ne_nil (fuel n : Nat) : wholeDigits fuel n ≠ [] := by
  cases fuel with
  | zero => simp [wholeDigits]
  | succ fuel =>
    rw [wholeDigits]
    split_ifs <;> simp

theorem length_fixedDigits (k n : Nat) : (fixedDigits k n).length = k := by
  induction k generalizing n with
  | zero => rfl
  | succ k ih => simp [fixedDigits, ih]

theorem fixedDigits_all_digit (k n : Nat) : (fixedDigits k n).all Char.isDigit = true := by
  induction k generalizing n with
  | zero => rfl
  | succ k ih =>
    simp only [fixedDigits, List.all_append, ih, List.all_cons, List.all_nil, Bool.and_true,
      Bool.true_and]
    exact digitChar_isDigit _ (Nat.mod_lt _ (by decide))

theorem digitsValue_fixedDigits (k n : Nat) : digitsValue (fixedDigits k n) = n % 10 ^ k := by
  induction k generalizing n with
  | zero => simp [fixedDigits, digitsValue, Nat.mod_one]
  | succ k ih =>
    rw [fixedDigits, digitsValue_append_singleton, ih,
      digitChar_value _ (Nat.mod_lt _ (by decide)), pow_succ', Nat.mod_mul]
    ring

theorem trimTrailingZeros_spec (cs : List Char) :
    (trimTrailingZeros cs).length ≤ cs.length ∧
      digitsValue (trimTrailingZeros cs) * 10 ^ (cs.length - (trimTrailingZeros cs).length) =
        digitsValue cs ∧
      (cs.all Char.isDigit = true → (trimTrailingZeros cs).all Char.isDigit = true) := by
  induction cs with
  | nil => simp [trimTrailingZeros]
  | cons c cs ih =>
    obtain ⟨hlen, hval, hdig⟩ := ih
    rw [trimTrailingZeros]
    cases ht : trimTrailingZeros cs with
    | nil =>
      rw [ht] at hval
      have hzero : digitsValue cs = 0 := by
        rw [← hval]
        simp [digitsValue]
      simp only
      split_ifs with hc
      · subst hc
        refine ⟨by simp, ?_, fun _ => rfl⟩
        rw [digitsValue_cons, hzero]
        simp [digitsValue]
      · refine ⟨by simp, ?_, fun h => ?_⟩
        swap
        · rw [List.all_cons, Bool.and_eq_true] at h
          rw [List.all_cons, h.1]
          rfl
        rw [digitsValue_cons, digitsValue_cons, hzero]
        simp [digitsValue]
    | cons t ts =>
      rw [ht] at hlen hval hdig
      simp only [List.length_cons] at hlen
      obtain ⟨k, hk⟩ : ∃ k, cs.length = ts.length + 1 + k := ⟨cs.length - (ts.length + 1), by omega⟩
      simp only
      refine ⟨by simp only [List.length_cons]; omega, ?_, ?_⟩
      · rw [digitsValue_cons c cs, digitsValue_cons c (t :: ts), ← hval]
        simp only [List.length_cons, hk]
        have h1 : ts.length + 1 + k + 1 - (ts.length + 1 + 1) = k := by omega
        have h2 : ts.length + 1 + k - (ts.length + 1) = k := by omega
        rw [h1, h2, pow_add]
        ring
      · intro h
        rw [List.all_cons, Bool.and_eq_true] at h
        rw [List.all_cons, h.1, hdig h.2]
        rfl

theorem isDigit_ne_dot (c : Char) (h : c.isDigit = true) : (c != '.') = true := by
  rcases eq_or_ne c '.' with hc | hc
  · subst hc
    exact absurd h (by decide)
  · simpa using hc

theorem wholePart_digits (w rest : List Char) (hw : w.all Char.isDigit = true) :
    wholePart (w ++ '.' :: rest) = w ∧ fractionPart (w ++ '.' :: rest) = rest ∧
      hasDot (w ++ '.' :: rest) = true ∧
      wholePart w = w ∧ fractionPart w = [] ∧ hasDot w = false := by
  induction w with
  | nil => simp [wholePart, fractionPart, hasDot]
  | cons c w ih =>
    have hc : c.isDigit = true ∧ w.all Char.isDigit = true := by
      rw [List.all_cons, Bool.and_eq_true] at hw
      exact hw
    obtain ⟨h1, h2, h3, h4, h5, h6⟩ := ih hc.2
    have hne := isDigit_ne_dot c hc.1
    have hne' : (c == '.') = false := by simpa [bne] using hne
    simp only [wholePart, fractionPart, hasDot] at h1 h2 h3 h4 h5 h6 ⊢
    refine ⟨?_, ?_, ?_, ?_, ?_, ?_⟩
    · simp only [List.cons_append, List.takeWhile_cons, hne, if_true, h1]
    · simp only [List.cons_append, List.dropWhile_cons, hne, if_true, h2]
    · rw [List.cons_append, List.any_cons, h3, Bool.or_true]
    · simp only [List.takeWhile_cons, hne, if_true, h4]
    · simp only [List.dropWhile_cons, hne, if_true, h5]
    · rw [List.any_cons, h6, hne']
      rfl

theorem parseUnits_whole (w : List Char) (d : Nat) (hw : w.all Char.isDigit = true)
    (hne : w ≠ []) :
    parseUnits (String.mk w) d = .ok (Int.ofNat (digitsValue w * 10 ^ d)) := by
  obtain ⟨-, -, -, h4, h5, h6⟩ := wholePart_digits w [] hw
  have hemp : w.isEmpty = false := by cases w <;> simp_all
  simp [parseUnits, isUnsignedDecimal, fractionalDigits, h4, h5, h6, hw, hemp, digitsValue]

theorem parseUnits_fraction (w f : List Char) (d : Nat) (hw : w.all Char.isDigit = true)
    (hne : w ≠ []) (hf : f.all Char.isDigit = true) (hfne : f ≠ []) (hlen : f.length ≤ d) :
    parseUnits (String.mk (w ++ '.' :: f)) d =
      .ok (Int.ofNat (digitsValue w * 10 ^ d + digitsValue f * 10 ^ (d - f.length))) := by
  obtain ⟨h1, h2, h3, -, -, -⟩ := wholePart_digits w f hw
  have hemp : w.isEmpty = false := by cases w <;> simp_all
  have hfemp : f.isEmpty = false := by cases f <;> simp_all
  have hlt : ¬ d < f.length := by omega
  simp only [parseUnits, isUnsignedDecimal, fractionalDigits, String.toList, h1, h2, h3, hw, hf,
    hemp, hfemp, hlt]
  rfl

theorem parse_of_format (n d : Nat) :
    parseUnits (formatUnits n d) d = .ok (Int.ofNat n) := by
  obtain ⟨hlen, hval, hdig⟩ := trimTrailingZeros_spec (fixedDigits d n)
  rw [length_fixedDigits] at hlen hval
  rw [digitsValue_fixedDigits] at hval
  have hfd := hdig (fixedDigits_all_digit d n)
  have hw := wholeDigits_all_digit (n / 10 ^ d) (n / 10 ^ d)
  have hwne := wholeDigits_ne_nil (n / 10 ^ d) (n / 10 ^ d)
  have hwv := digitsValue_wholeDigits (n / 10 ^ d) (n / 10 ^ d) (le_refl _)
  have hn : n / 10 ^ d * 10 ^ d + n % 10 ^ d = n := Nat.div_add_mod' n (10 ^ d)
  simp only [formatUnits]
  cases hF : trimTrailingZeros (fixedDigits d n) with
  | nil =>
    rw [hF] at hval
    have hz : n % 10 ^ d = 0 := by
      rw [← hval]
      simp [digitsValue]
    simp only
    rw [parseUnits_whole _ _ hw hwne, hwv]
    rw [hz, Nat.add_zero] at hn
    rw [hn]
  | cons f fs =>
    rw [hF] at hval hlen hfd
    simp only
    rw [parseUnits_fraction _ _ _ hw hwne hfd (by simp) hlen, hwv, hval, hn]

/-- C11: for every base amount `n` and every decimal count `d`, formatting `n` as
a human string and converting that string back to base units with the same `d`
yields `n`; so the string a read operation returns for a raw value converts back
to that raw value. In particular `1500000000000000000` with 18 decimals formats
to `1.5`, and `1.5` parses to `1500000000000000000`. -/
theorem parseUnits_formatUnits_roundtrip (n d : Nat) :
    parseUnits (formatUnits n d) d = .ok (Int.ofNat n) ∧
      parseUnits (HumanAmount.render { value := n, decimals := d }) d = .ok (Int.ofNat n) ∧
      formatUnits 1500000000000000000 18 = "1.5" ∧
      parseUnits "1.5" 18 = .ok 1500000000000000000 :=
  ⟨parse_of_format n d, parse_of_format n d, by decide, by decide⟩

/-- Every amount the conversion accepts is reproduced by the round trip:
formatting the base units it yields and converting again gives the same base
units. -/
theorem formatUnits_parseUnits_same_value (amount : String) (d : Nat) (v : Int)
    (h : parseUnits amount d = .ok v) :
    ∃ n : Nat, v = Int.ofNat n ∧ parseUnits (formatUnits n d) d = .ok v := by
  unfold parseUnits at h
  simp only at h
  split_ifs at h
  simp only [Except.ok.injEq] at h
  exact ⟨_, h.symm, h ▸ parse_of_format _ d⟩

/-- On the code: the string `getBalance` returns for a raw balance is converted
back to that raw balance by the conversion the write methods apply, as long as
the cached decimals are the same. -/
theorem getBalance_string_parses_back (tc : TokenContract) (env : Env) (c : Contract)
    (user : String) (balance : Nat) (henv : env.parseUnits = parseUnits)
    (hc : tc.contract = some c) (hb : env.chain.balanceOf c.address user = .ok balance) :
    ∃ h tc', tc.getBalance env user = (.ok h, tc') ∧ tc'.decimals = tc.decimals ∧
      env.parseUnits h.render tc'.decimals = .ok (Int.ofNat balance) := by
  refine ⟨{ value := balance, decimals := tc.decimals },
    { tc with calls := tc.calls ++ [.balanceOf c.address user] }, ?_, rfl, ?_⟩
  · simp [TokenContract.getBalance, hc, hb]
  · rw [henv]
    exact parse_of_format balance tc.decimals

end MyTokenERC20
